import Mathlib

/-!
Verification of the ingestion-to-analysis orchestration pipeline of the
Zotero Paper AI Manager VS Code extension (`src/vscode-extension/src/extension.ts`,
second revision — the one using `fs.watch` and `resolveModel`).

Each TypeScript function relevant to the specified behaviour is shallowly
embedded below: pure string/array manipulation becomes functions on
`List Char`/`String`, the stateful pipeline (`analyzePaper`) becomes an
explicit state-passing function over an environment describing the external
collaborators, and timers become explicit scheduled events.
-/

namespace PaperManager

/-! ## ContextSelector
Embedding of the head–tail splice in `analyzePaper`
(`extension.ts` lines 587–606).  Text is modelled as `List Char`
(JavaScript `string.length`, `slice` correspond to `List.length`,
`take`/`drop`). -/

/-- The fixed context budget: `const maxChars = 60000`. -/
def maxChars : Nat := 60000

/-- `Math.floor(maxChars * 0.67)`.  In IEEE double arithmetic
`60000 * 0.67` evaluates to `40200.000000000004…`, whose floor is `40200`,
which equals the exact rational computation `60000 * 67 / 100` used here. -/
def headChars : Nat := maxChars * 67 / 100

/-- `const tailChars = maxChars - headChars`. -/
def tailChars : Nat := maxChars - headChars

/-- The elision marker joining head and tail:
the string literal `'\n\n[... 中间部分已省略 ...]\n\n'`. -/
def elisionMarker : List Char := "\n\n[... 中间部分已省略 ...]\n\n".toList

/-- `Math.round(maxChars / totalChars * 100)` with the division read as an
exact rational: `round (num / den) = ⌊num / den + 1/2⌋ = (2*num + den) / (2*den)`
in natural-number division. -/
def jsRoundPct (num den : Nat) : Nat := (2 * (num * 100) + den) / (2 * den)

/-- Coverage descriptor reported by the selection step: the code's
`readNote` is `'全文'` in the complete branch, and in the splice branch a
string interpolating `headChars`, `tailChars`, `totalChars` and `readPct`;
we model it structurally by those fields. -/
inductive Coverage where
  | complete : Coverage
  | spliced (headLen tailLen total pct : Nat) : Coverage
deriving DecidableEq, Repr

/-- The context-selection step of `analyzePaper` (lines 592–606):
if the text fits the budget it is used whole, otherwise the first
`headChars` characters and the last `tailChars` characters are joined by
`elisionMarker` (`pdfText.slice(0, headChars)`, `pdfText.slice(-tailChars)`;
for `tailChars ≤ length` the negative slice yields the last `tailChars`
characters, i.e. `drop (length - tailChars)`). -/
def select (pdfText : List Char) : List Char × Coverage :=
  let totalChars := pdfText.length
  if totalChars ≤ maxChars then
    (pdfText, Coverage.complete)
  else
    let head := pdfText.take headChars
    let tail := pdfText.drop (totalChars - tailChars)
    let usedText := head ++ elisionMarker ++ tail
    (usedText, Coverage.spliced headChars tailChars totalChars
      (jsRoundPct maxChars totalChars))

theorem headChars_eq : headChars = 40200 := by decide

theorem tailChars_eq : tailChars = 19800 := by decide

theorem elisionMarker_length : elisionMarker.length = 21 := by decide

theorem select_of_le (t : List Char) (h : t.length ≤ maxChars) :
    select t = (t, Coverage.complete) := by
  simp only [select]
  rw [if_pos h]

theorem select_spliced (t : List Char) (h : maxChars < t.length) :
    select t = (t.take headChars ++ elisionMarker ++ t.drop (t.length - tailChars),
      Coverage.spliced headChars tailChars t.length (jsRoundPct maxChars t.length)) := by
  simp only [select]
  rw [if_neg (Nat.not_le.mpr h)]

/-- C1: for every text strictly longer than the budget, the used text is
exactly `head ++ elisionMarker ++ tail`; but the claimed identities
`len(head) + len(tail) = budget − len(marker)` and `len(usedText) ≤ budget`
are both false on the code: this counterexample shows that for a
60001-character document the used text is 60021 characters long,
exceeding the 60000-character budget. -/
theorem c1_counterexample :
    ¬ ((select (List.replicate 60001 'a')).1.length ≤ maxChars) := by
  rw [select_spliced (List.replicate 60001 'a') (by rw [List.length_replicate]; decide)]
  simp only [List.length_append, List.length_take, List.length_drop,
    List.length_replicate, elisionMarker_length, headChars_eq, tailChars_eq, maxChars]
  omega

/-- C1 (amended): for every text strictly longer than the budget, the used
text is exactly `head ++ elisionMarker ++ tail` where
`len(head) + len(tail) = budgetChars` (not `budgetChars − len(marker)`),
so the used length is exactly `budgetChars + len(marker)`, exceeding the
budget by the length of the elision marker (the marker is inserted whole,
never split). -/
theorem c1_amended (t : List Char) (h : maxChars < t.length) :
    (select t).1 = t.take headChars ++ elisionMarker ++ t.drop (t.length - tailChars) ∧
    (t.take headChars).length + (t.drop (t.length - tailChars)).length = maxChars ∧
    (select t).1.length = maxChars + elisionMarker.length := by
  rw [select_spliced t h]
  refine ⟨rfl, ?_, ?_⟩ <;>
    simp only [List.length_append, List.length_take, List.length_drop,
      elisionMarker_length, headChars_eq, tailChars_eq, maxChars] <;>
    revert h <;> simp only [maxChars] <;> omega

theorem c1_witness :
    maxChars < (List.replicate 60001 'a').length ∧
    (select (List.replicate 60001 'a')).1.length = maxChars + elisionMarker.length :=
  ⟨by rw [List.length_replicate]; decide,
   (c1_amended (List.replicate 60001 'a') (by rw [List.length_replicate]; decide)).2.2⟩

/-- C5: the claim that the head is the first `floor(budget × 2/3)` (= 40000)
characters is false: the code computes `Math.floor(maxChars * 0.67)` = 40200.
At a 60001-character document the two disagree: character 40000 of the
spliced output is still document text, not the elision marker. -/
theorem c5_counterexample :
    (select (List.replicate 60001 'a')).1 ≠
      (List.replicate 60001 'a').take (maxChars * 2 / 3) ++ elisionMarker ++
      (List.replicate 60001 'a').drop (60001 - (maxChars - maxChars * 2 / 3)) := by
  rw [select_spliced (List.replicate 60001 'a') (by rw [List.length_replicate]; decide)]
  rw [List.take_replicate, List.drop_replicate, List.take_replicate, List.drop_replicate]
  rw [List.length_replicate, headChars_eq, tailChars_eq]
  rw [show ((40200 : Nat) ⊓ 60001) = 40200 from by decide]
  rw [show ((60001 : Nat) - (60001 - 19800)) = 19800 from by decide]
  rw [show (maxChars * 2 / 3 : Nat) ⊓ 60001 = 40000 from by decide]
  rw [show ((60001 : Nat) - (60001 - (maxChars - maxChars * 2 / 3))) = 20000 from by decide]
  intro h
  have h40000 := congrArg (fun l => l[40000]?) h
  simp only at h40000
  rw [@List.getElem?_append_left Char (List.replicate 40200 'a' ++ elisionMarker)
        (List.replicate 19800 'a') 40000
        (by rw [List.length_append, List.length_replicate, elisionMarker_length]; decide),
      List.getElem?_append_left (by rw [List.length_replicate]; decide),
      List.getElem?_replicate, if_pos (by decide)] at h40000
  rw [@List.getElem?_append_left Char (List.replicate 40000 'a' ++ elisionMarker)
        (List.replicate 20000 'a') 40000
        (by rw [List.length_append, List.length_replicate, elisionMarker_length]; decide),
      List.getElem?_append_right (by rw [List.length_replicate]),
      List.length_replicate] at h40000
  exact absurd h40000 (by decide)

/-- C5 (amended): for every text strictly longer than the budget, the head
is the first `floor(budgetChars × 0.67)` = 40200 characters (the source
computes `Math.floor(maxChars * 0.67)`, not `budget × 2/3`) and the tail is
the last `budgetChars − headLen` = 19800 characters. -/
theorem c5_amended (t : List Char) (h : maxChars < t.length) :
    (select t).1 = t.take (maxChars * 67 / 100) ++ elisionMarker ++
      t.drop (t.length - (maxChars - maxChars * 67 / 100)) := by
  rw [select_spliced t h]; rfl

theorem c5_witness :
    maxChars < (List.replicate 60001 'a').length ∧
    (select (List.replicate 60001 'a')).1 =
      (List.replicate 60001 'a').take (maxChars * 67 / 100) ++ elisionMarker ++
      (List.replicate 60001 'a').drop (60001 - (maxChars - maxChars * 67 / 100)) :=
  ⟨by rw [List.length_replicate]; decide,
   by rw [show ((60001 : Nat) - (maxChars - maxChars * 67 / 100)) =
        (List.replicate 60001 'a').length - (maxChars - maxChars * 67 / 100) from by
          rw [List.length_replicate]]
      exact c5_amended (List.replicate 60001 'a') (by rw [List.length_replicate]; decide)⟩

/-- C6: text within the budget is used unchanged with coverage "complete";
text above the budget reports coverage `round(budget/len × 100)`.
Concretely a 48271-character document with the 60000 budget is used whole,
and a 150000-character document gives head 40200, tail 19800, coverage 40 %. -/
theorem c6_select_coverage :
    (∀ t : List Char, t.length ≤ maxChars → select t = (t, Coverage.complete)) ∧
    (∀ t : List Char, maxChars < t.length →
      (select t).2 = Coverage.spliced headChars tailChars t.length
        (jsRoundPct maxChars t.length)) ∧
    select (List.replicate 48271 'a') = (List.replicate 48271 'a', Coverage.complete) ∧
    (select (List.replicate 150000 'a')).1 =
      List.replicate 40200 'a' ++ elisionMarker ++ List.replicate 19800 'a' ∧
    (select (List.replicate 150000 'a')).2 = Coverage.spliced 40200 19800 150000 40 := by
  refine ⟨select_of_le, fun t h => by rw [select_spliced t h], ?_, ?_, ?_⟩
  · exact select_of_le _ (by rw [List.length_replicate]; decide)
  · rw [select_spliced (List.replicate 150000 'a') (by rw [List.length_replicate]; decide)]
    rw [List.take_replicate, List.drop_replicate, List.length_replicate,
      headChars_eq, tailChars_eq]
    rw [show ((40200 : Nat) ⊓ 150000) = 40200 from by decide]
  · rw [select_spliced (List.replicate 150000 'a') (by rw [List.length_replicate]; decide)]
    rw [List.length_replicate, headChars_eq, tailChars_eq]
    rw [show jsRoundPct maxChars 150000 = 40 from by decide]

theorem c6_witness :
    (List.replicate 48271 'a').length ≤ maxChars ∧
    select (List.replicate 48271 'a') = (List.replicate 48271 'a', Coverage.complete) :=
  ⟨by rw [List.length_replicate]; decide,
   c6_select_coverage.1 (List.replicate 48271 'a') (by rw [List.length_replicate]; decide)⟩

/-! ## ModelResolver
Embedding of `resolveModel` (`extension.ts` lines 418–444) together with its
helpers.  A `vscode.LanguageModelChat` is modelled by its three fields the
function reads. -/

/-- The fields of a backend-advertised model that `resolveModel` consults. -/
structure LMModel where
  name : String
  family : String
  id : String
deriving DecidableEq, Repr

/-- JavaScript `String.prototype.toLowerCase` (character-wise lowering). -/
def lowerStr (s : String) : String :=
  (s.toList.map Char.toLower).asString

/-- `const normalize = (s) => s.replace(/[-_.]/g, '').toLowerCase()`. -/
def normalize (s : String) : String :=
  ((s.toList.filter (fun c => !(c == '-' || c == '_' || c == '.'))).map Char.toLower).asString

/-- JavaScript `String.prototype.split` against a character class: cut the
string at every delimiter character, keeping empty segments, as
`"a--b".split(/[-.]/)` yields `["a", "", "b"]`. -/
def splitOnPred (p : Char → Bool) : List Char → List (List Char)
  | [] => [[]]
  | c :: rest =>
    match splitOnPred p rest with
    | [] => [[]]
    | seg :: segs => if p c then [] :: seg :: segs else (c :: seg) :: segs

/-- `preferredFamily.split(/[-.]/).slice(0, 3).join('').toLowerCase()`. -/
def pfxOf (preferredFamily : String) : String :=
  ((((splitOnPred (fun c => c == '-' || c == '.') preferredFamily.toList).take 3).flatten).map
    Char.toLower).asString

/-- JavaScript `String.prototype.startsWith`. -/
def startsWithStr (s pat : String) : Bool :=
  pat.toList.isPrefixOf s.toList

/-- JavaScript `String.prototype.includes`: `pat` occurs contiguously in `s`
(some suffix of `s` begins with `pat`). -/
def containsStr (s pat : String) : Bool :=
  s.toList.tails.any (fun t => pat.toList.isPrefixOf t)

/-- `resolveModel(preferredFamily)`: the sequence of early returns in the
source is the corresponding `Option.orElse` chain; `getAvailableModels()` is
the `available` argument. -/
def resolveModel (available : List LMModel) (preferredFamily : String) : Option LMModel :=
  if available.isEmpty then none
  else
    (available.find? (fun m => m.family == preferredFamily)).orElse fun _ =>
    (available.find? (fun m => normalize m.family == normalize preferredFamily)).orElse fun _ =>
    (available.find? (fun m =>
        startsWithStr (normalize m.family) (pfxOf preferredFamily))).orElse fun _ =>
    (if startsWithStr preferredFamily "claude" then
        available.find? (fun m =>
          containsStr m.family "claude" || containsStr (lowerStr m.name) "claude")
      else none).orElse fun _ =>
    available.head?

/-- The first example model pair of the spec's §8:
family `"claude-sonnet-4.6"`. -/
def mClaudeSonnet : LMModel :=
  ⟨"Claude Sonnet 4.6", "claude-sonnet-4.6", "claude-sonnet-4.6-id"⟩

/-- The second example model: family `"gpt-4o"`. -/
def mGpt4o : LMModel := ⟨"GPT-4o", "gpt-4o", "gpt-4o-id"⟩

theorem orElse_isSome {α : Type} (o : Option α) (f : Unit → Option α)
    (h : (f ()).isSome) : (o.orElse f).isSome := by
  cases o <;> simp [Option.orElse, h]

/-- C3: `resolveModel` returns `none` exactly when model discovery yields an
empty list; the exact family tier has priority over all later tiers; with
available families `["claude-sonnet-4.6", "gpt-4o"]` and preferred
`"claude-sonnet-4-6"` the exact tier fails, the normalized tier matches, and
the first family is selected; and with preferred `"claude-opus-9"` and no
claude model available the resolver falls through to the first available
model. -/
theorem c3_resolveModel :
    (∀ pref : String, resolveModel [] pref = none) ∧
    (∀ (avail : List LMModel) (pref : String), resolveModel avail pref = none → avail = []) ∧
    (∀ (avail : List LMModel) (pref : String) (m : LMModel),
      avail.find? (fun x => x.family == pref) = some m → resolveModel avail pref = some m) ∧
    ([mClaudeSonnet, mGpt4o].find? (fun x => x.family == "claude-sonnet-4-6") = none ∧
     normalize mClaudeSonnet.family = normalize "claude-sonnet-4-6" ∧
     resolveModel [mClaudeSonnet, mGpt4o] "claude-sonnet-4-6" = some mClaudeSonnet) ∧
    resolveModel [mGpt4o] "claude-opus-9" = some mGpt4o := by
  refine ⟨fun _ => rfl, ?_, ?_, ⟨by decide, by decide, by decide⟩, by decide⟩
  · intro avail pref h
    cases avail with
    | nil => rfl
    | cons a as =>
      exfalso
      have hs : (resolveModel (a :: as) pref).isSome := by
        unfold resolveModel
        rw [if_neg (by simp)]
        apply orElse_isSome
        apply orElse_isSome
        apply orElse_isSome
        apply orElse_isSome
        simp
      rw [h] at hs
      exact Bool.false_ne_true hs
  · intro avail pref m h
    cases avail with
    | nil => exact absurd h (by simp)
    | cons a as =>
      unfold resolveModel
      rw [if_neg (by simp), h]
      rfl

theorem c3_witness :
    [mClaudeSonnet, mGpt4o].find? (fun x => x.family == "claude-sonnet-4.6")
      = some mClaudeSonnet ∧
    resolveModel [mClaudeSonnet, mGpt4o] "claude-sonnet-4.6" = some mClaudeSonnet :=
  ⟨by decide, c3_resolveModel.2.2.1 [mClaudeSonnet, mGpt4o] "claude-sonnet-4.6"
    mClaudeSonnet (by decide)⟩

/-! ## AnalysisOrchestrator — `analyzePaper` (lines 529–646)
The pipeline is a straight-line async function whose external effects are
the Python extraction step, the model resolver, streamed generation, and the
write-back step.  Each run is modelled as a function of the pre-run
`recentlyProcessed` set and an environment fixing each collaborator's
response; the result records the terminal state, which collaborators were
invoked, the set after the run, and the delete timers the run scheduled. -/

/-- JavaScript `String.prototype.trim` on a character list. -/
def trimList (l : List Char) : List Char :=
  ((l.dropWhile Char.isWhitespace).reverse.dropWhile Char.isWhitespace).reverse

/-- The external collaborators a run can invoke. -/
inductive Collab where
  | extractText
  | resolveModelCall
  | generate
  | writeback
deriving DecidableEq, Repr

/-- Terminal state of one `analyzePaper` run. -/
inductive Outcome where
  | skippedDuplicate
  | skippedByUser
  | failedExtraction
  | extractionEmpty
  | noModel
  | failedGeneration
  | writebackFailed (analysisText : List Char)
  | done (analysisText : List Char)
deriving DecidableEq, Repr

/-- Responses of the external collaborators for one run. -/
structure PaperEnv where
  /-- stdout of `pdf_to_text.py KEY`; `none` models a nonzero exit code. -/
  extractRaw : Option (List Char)
  /-- models advertised by `vscode.lm` (the `getAvailableModels` result). -/
  models : List LMModel
  /-- whether the operator picks `跳过此次` on the auto-trigger prompt. -/
  skipChosen : Bool
  /-- accumulated streamed analysis; `none` models `sendRequest` throwing. -/
  genResult : Option (List Char)
  /-- whether `save_analysis.py` exits with code 0. -/
  writebackOk : Bool
deriving DecidableEq, Repr

/-- Observable result of one `analyzePaper` run. -/
structure RunResult where
  outcome : Outcome
  /-- collaborators invoked, in order. -/
  calls : List Collab
  /-- the `recentlyProcessed` set after the run returns. -/
  recentlyProcessed : List String
  /-- `setTimeout` deletions scheduled by the run: (key, delay ms). -/
  expiryTimers : List (String × Nat)
  /-- the `pdfText` that survived the emptiness check, if the run got there. -/
  analyzedText : Option (List Char)
deriving DecidableEq, Repr

/-- The `pdfText` computed at lines 560–562: trim the raw stdout, split into
lines, log the first line (status) and keep only the rest, re-joined. -/
def strippedBody (raw : List Char) : List Char :=
  List.intercalate ['\n'] ((splitOnPred (fun c => c == '\n') (trimList raw)).drop 1)

/-- `analyzePaper(itemKey, autoTriggered)` (lines 529–646).  `recently` is
the `recentlyProcessed` set at entry, `preferredModel` the configured model
string. -/
def analyzePaper (itemKey : String) (autoTriggered : Bool) (recently : List String)
    (preferredModel : String) (env : PaperEnv) : RunResult :=
  if itemKey ∈ recently then
    ⟨Outcome.skippedDuplicate, [], recently, [], none⟩
  else
    let recently1 := itemKey :: recently
    let timers : List (String × Nat) := [(itemKey, 120000)]
    if autoTriggered && env.skipChosen then
      ⟨Outcome.skippedByUser, [], recently1.erase itemKey, timers, none⟩
    else
      match env.extractRaw with
      | none => ⟨Outcome.failedExtraction, [Collab.extractText], recently1, timers, none⟩
      | some raw =>
        let pdfText := strippedBody raw
        if trimList pdfText == [] then
          ⟨Outcome.extractionEmpty, [Collab.extractText], recently1, timers, none⟩
        else
          match resolveModel env.models preferredModel with
          | none => ⟨Outcome.noModel, [Collab.extractText, Collab.resolveModelCall],
              recently1, timers, some pdfText⟩
          | some _ =>
            match env.genResult with
            | none => ⟨Outcome.failedGeneration,
                [Collab.extractText, Collab.resolveModelCall, Collab.generate],
                recently1, timers, some pdfText⟩
            | some analysisText =>
              if env.writebackOk then
                ⟨Outcome.done analysisText,
                  [Collab.extractText, Collab.resolveModelCall, Collab.generate,
                    Collab.writeback],
                  recently1, timers, some pdfText⟩
              else
                ⟨Outcome.writebackFailed analysisText,
                  [Collab.extractText, Collab.resolveModelCall, Collab.generate,
                    Collab.writeback],
                  recently1, timers, some pdfText⟩

theorem analyzePaper_mem (itemKey : String) (autoTriggered : Bool)
    (recently : List String) (preferredModel : String) (env : PaperEnv)
    (h : itemKey ∈ recently) :
    analyzePaper itemKey autoTriggered recently preferredModel env =
      ⟨Outcome.skippedDuplicate, [], recently, [], none⟩ := by
  unfold analyzePaper
  rw [if_pos h]

theorem splitOnPred_no_delim (p : Char → Bool) (l : List Char)
    (h : ∀ c ∈ l, p c = false) : splitOnPred p l = [l] := by
  induction l with
  | nil => rfl
  | cons c rest ih =>
    rw [splitOnPred, ih (fun d hd => h d (List.mem_cons_of_mem _ hd))]
    simp [h c (List.mem_cons_self c rest)]

theorem strippedBody_of_single_line (raw : List Char)
    (h : ∀ c ∈ trimList raw, (c == '\n') = false) : strippedBody raw = [] := by
  unfold strippedBody
  rw [splitOnPred_no_delim _ _ h]
  rfl

theorem analyzePaper_extractionEmpty (key : String) (auto : Bool)
    (recently : List String) (pref : String) (env : PaperEnv) (raw : List Char)
    (hmem : key ∉ recently) (hskip : ¬(auto && env.skipChosen) = true)
    (hraw : env.extractRaw = some raw)
    (hempty : trimList (strippedBody raw) = []) :
    analyzePaper key auto recently pref env =
      ⟨Outcome.extractionEmpty, [Collab.extractText], key :: recently,
        [(key, 120000)], none⟩ := by
  simp only [analyzePaper, hraw]
  rw [if_neg hmem, if_neg hskip, if_pos (by rw [hempty]; rfl)]

/-- C4: a trigger for an identifier already in the RecentlyProcessed set is
a no-op — the outcome records the skip, no collaborator is invoked, the set
is unchanged and no timer is scheduled; a fresh trigger inserts the
identifier when the run starts and schedules its removal after the fixed
2-minute (120000 ms) window. -/
theorem c4_dedup :
    (∀ (key : String) (auto : Bool) (recently : List String) (pref : String)
        (env : PaperEnv), key ∈ recently →
      analyzePaper key auto recently pref env =
        ⟨Outcome.skippedDuplicate, [], recently, [], none⟩) ∧
    (∀ (key : String) (auto : Bool) (recently : List String) (pref : String)
        (env : PaperEnv), key ∉ recently →
      (analyzePaper key auto recently pref env).expiryTimers = [(key, 120000)] ∧
      (¬(auto && env.skipChosen) = true →
        (analyzePaper key auto recently pref env).recentlyProcessed = key :: recently)) := by
  refine ⟨analyzePaper_mem, ?_⟩
  intro key auto recently pref env h
  constructor
  · simp only [analyzePaper]
    rw [if_neg h]
    repeat first | rfl | split
  · intro hskip
    simp only [analyzePaper]
    rw [if_neg h, if_neg hskip]
    repeat first | rfl | split

/-- Environment of the C2 failure-isolation scenario: extraction succeeds
with a status line plus body, one claude model is available, generation
streams an analysis, and the write-back step fails. -/
def envWbFail : PaperEnv where
  extractRaw := some "STATUS ok\npaper body text".toList
  models := [mClaudeSonnet]
  skipChosen := false
  genResult := some "the analysis".toList
  writebackOk := false

theorem c4_witness :
    analyzePaper "ABCD1234" false ["ABCD1234"] "claude-sonnet-4.6" envWbFail =
      ⟨Outcome.skippedDuplicate, [], ["ABCD1234"], [], none⟩ :=
  c4_dedup.1 "ABCD1234" false ["ABCD1234"] "claude-sonnet-4.6" envWbFail
    (by decide)

/-- C2: the claim that the RecentlyProcessed reservation is released when
the write-back step fails is false on the code: after a run that ends in
`writebackFailed` the identifier is still in the set, and an immediate
re-trigger for it is dropped as a duplicate with no collaborator calls. -/
theorem c2_counterexample :
    (analyzePaper "ABCD1234" false [] "claude-sonnet-4.6" envWbFail).outcome
      = Outcome.writebackFailed "the analysis".toList ∧
    "ABCD1234" ∈
      (analyzePaper "ABCD1234" false [] "claude-sonnet-4.6" envWbFail).recentlyProcessed ∧
    (analyzePaper "ABCD1234" false
      (analyzePaper "ABCD1234" false [] "claude-sonnet-4.6" envWbFail).recentlyProcessed
      "claude-sonnet-4.6" envWbFail).outcome = Outcome.skippedDuplicate ∧
    (analyzePaper "ABCD1234" false
      (analyzePaper "ABCD1234" false [] "claude-sonnet-4.6" envWbFail).recentlyProcessed
      "claude-sonnet-4.6" envWbFail).calls = [] := by
  decide

/-- C2 (amended): when the write-back step fails after generation
succeeded, the run ends in the distinct `writebackFailed` outcome that
still carries the generated text; every collaborator ran exactly once (in
particular generation and write-back are not retried); but the identifier's
RecentlyProcessed reservation is NOT released — it stays in the set (until
the separately scheduled 2-minute timer deletes it), so an immediate
re-trigger for the same identifier is a duplicate no-op. -/
theorem c2_amended (key : String) (auto : Bool) (recently : List String)
    (pref : String) (env : PaperEnv) (a : List Char) :
    (analyzePaper key auto recently pref env).outcome = Outcome.writebackFailed a →
    key ∈ (analyzePaper key auto recently pref env).recentlyProcessed ∧
    (analyzePaper key auto recently pref env).calls =
      [Collab.extractText, Collab.resolveModelCall, Collab.generate, Collab.writeback] ∧
    analyzePaper key auto
        (analyzePaper key auto recently pref env).recentlyProcessed pref env =
      ⟨Outcome.skippedDuplicate, [],
        (analyzePaper key auto recently pref env).recentlyProcessed, [], none⟩ := by
  intro h
  have hmc : key ∈ (analyzePaper key auto recently pref env).recentlyProcessed ∧
      (analyzePaper key auto recently pref env).calls =
        [Collab.extractText, Collab.resolveModelCall, Collab.generate,
          Collab.writeback] := by
    revert h
    simp only [analyzePaper]
    split
    · simp
    · split
      · simp
      · split
        · simp
        · split
          · simp
          · split
            · simp
            · split
              · simp
              · split <;> simp [List.mem_cons_self]
  exact ⟨hmc.1, hmc.2, analyzePaper_mem _ _ _ _ _ hmc.1⟩

theorem c2_amended_witness :
    (analyzePaper "ABCD1234" false [] "claude-sonnet-4.6" envWbFail).outcome
      = Outcome.writebackFailed "the analysis".toList ∧
    "ABCD1234" ∈
      (analyzePaper "ABCD1234" false [] "claude-sonnet-4.6" envWbFail).recentlyProcessed :=
  ⟨by decide,
   (c2_amended "ABCD1234" false [] "claude-sonnet-4.6" envWbFail
      "the analysis".toList (by decide)).1⟩

/-- C10: the first line of the extractor's stdout is a status line and is
stripped before the emptiness check: whatever text the run analyses is
rebuilt only from the lines after the first; and when the output is a
single status line, or the remaining lines are whitespace-only, the run
terminates at the extraction-empty check having invoked only the text
extractor — no model resolution, generation or write-back. -/
theorem c10_statusLine :
    (∀ (key : String) (auto : Bool) (recently : List String) (pref : String)
        (env : PaperEnv) (raw t : List Char),
      env.extractRaw = some raw →
      (analyzePaper key auto recently pref env).analyzedText = some t →
      t = strippedBody raw) ∧
    (∀ (key : String) (auto : Bool) (recently : List String) (pref : String)
        (env : PaperEnv) (raw : List Char),
      key ∉ recently → ¬(auto && env.skipChosen) = true →
      env.extractRaw = some raw →
      trimList (strippedBody raw) = [] →
      analyzePaper key auto recently pref env =
        ⟨Outcome.extractionEmpty, [Collab.extractText], key :: recently,
          [(key, 120000)], none⟩) ∧
    (∀ (key : String) (auto : Bool) (recently : List String) (pref : String)
        (env : PaperEnv) (raw : List Char),
      key ∉ recently → ¬(auto && env.skipChosen) = true →
      env.extractRaw = some raw →
      (∀ c ∈ trimList raw, (c == '\n') = false) →
      analyzePaper key auto recently pref env =
        ⟨Outcome.extractionEmpty, [Collab.extractText], key :: recently,
          [(key, 120000)], none⟩) := by
  refine ⟨?_, analyzePaper_extractionEmpty, ?_⟩
  · intro key auto recently pref env raw t hraw
    simp only [analyzePaper, hraw]
    repeat' split
    all_goals intro h
    all_goals try exact (Option.some.inj h).symm
    all_goals simp at h
  · intro key auto recently pref env raw hmem hskip hraw hsingle
    exact analyzePaper_extractionEmpty key auto recently pref env raw hmem hskip hraw
      (by rw [strippedBody_of_single_line raw hsingle]; rfl)

/-! ## IdentifierExtractor — `extractKeyFromPath` (lines 463–472)
Paths are character lists.  `storageDir` is the configured
`paperManager.zoteroStoragePath` read through `getConfig()`; the function is
a pure computation from the two strings (its only "effect" is that
configuration read, modelled as the second argument). -/

/-- `fullPath.replace(/\\/g, '/')`. -/
def normSlashes (l : List Char) : List Char :=
  l.map (fun c => if c == '\\' then '/' else c)

/-- `replace(/\/$/, '')`: remove a single trailing slash. -/
def stripTrailingSlash (l : List Char) : List Char :=
  if l.getLast? == some '/' then l.dropLast else l

/-- `replace(/^\//, '')`: remove a single leading slash. -/
def stripLeadingSlash (l : List Char) : List Char :=
  if l.head? == some '/' then l.tail else l

/-- `path.basename(path.dirname(fullPath))`: the segment between the last
two `'/'` separators.  This models the Node composition for the paths the
watcher produces — at least two separators and no trailing slash. -/
def parentDirName (l : List Char) : List Char :=
  ((((l.reverse.dropWhile (fun c => !(c == '/'))).drop 1).takeWhile
    (fun c => !(c == '/')))).reverse

/-- The item-key pattern `/^[A-Z0-9]{8}$/i`: exactly eight ASCII
letters-or-digits (case-insensitive). -/
def isValidKey (l : List Char) : Bool :=
  l.length == 8 && l.all (fun c => c.isUpper || c.isLower || c.isDigit)

/-- `extractKeyFromPath(fullPath)`: normalize separators, strip the
storage-root prefix if present (else fall back to the parent directory
name on the raw path), take the first remaining segment
(`rel.split('/')[0] || ''`), validate, uppercase. -/
def extractKeyFromPath (fullPath storageDir : List Char) : Option (List Char) :=
  let normalized := normSlashes fullPath
  let storageNorm := stripTrailingSlash (normSlashes storageDir)
  let rel := if storageNorm.isPrefixOf normalized then
      stripLeadingSlash (normalized.drop storageNorm.length)
    else
      parentDirName fullPath
  let key := (splitOnPred (fun c => c == '/') rel).headD []
  if isValidKey key then some (key.map Char.toUpper) else none

theorem splitOnPred_ne_nil (p : Char → Bool) (l : List Char) :
    splitOnPred p l ≠ [] := by
  cases l with
  | nil => simp [splitOnPred]
  | cons c rest =>
    rw [splitOnPred]
    rcases h : splitOnPred p rest with _ | ⟨seg, segs⟩
    · simp
    · split <;> (try split) <;> simp

theorem headD_splitOnPred (p : Char → Bool) (l : List Char) :
    (splitOnPred p l).headD [] = l.takeWhile (fun c => !(p c)) := by
  induction l with
  | nil => rfl
  | cons c rest ih =>
    rw [splitOnPred]
    rcases h : splitOnPred p rest with _ | ⟨seg, segs⟩
    · exact absurd h (splitOnPred_ne_nil p rest)
    · rw [h] at ih
      simp only [List.headD_cons] at ih
      by_cases hp : p c = true
      · simp [hp, List.takeWhile_cons]
      · rw [Bool.not_eq_true] at hp
        simp [hp, List.takeWhile_cons, ih]

theorem takeWhile_all_append (p : Char → Bool) (A : List Char) (x : Char)
    (X : List Char) (hA : ∀ c ∈ A, p c = true) (hx : p x = false) :
    ((A ++ x :: X).takeWhile p) = A := by
  induction A with
  | nil => simp [List.takeWhile_cons, hx]
  | cons a as ih =>
    rw [List.cons_append, List.takeWhile_cons,
      if_pos (hA a (List.mem_cons_self a as)),
      ih (fun c hc => hA c (List.mem_cons_of_mem _ hc))]

theorem dropWhile_all_append (p : Char → Bool) (A : List Char) (x : Char)
    (X : List Char) (hA : ∀ c ∈ A, p c = true) (hx : p x = false) :
    ((A ++ x :: X).dropWhile p) = x :: X := by
  induction A with
  | nil => simp [List.dropWhile_cons, hx]
  | cons a as ih =>
    rw [List.cons_append, List.dropWhile_cons,
      if_pos (hA a (List.mem_cons_self a as)),
      ih (fun c hc => hA c (List.mem_cons_of_mem _ hc))]

theorem takeWhile_all (p : Char → Bool) (A : List Char)
    (hA : ∀ c ∈ A, p c = true) : A.takeWhile p = A := by
  induction A with
  | nil => rfl
  | cons a as ih =>
    rw [List.takeWhile_cons, if_pos (hA a (List.mem_cons_self a as)),
      ih (fun c hc => hA c (List.mem_cons_of_mem _ hc))]

theorem isPrefixOf_append_self (l x : List Char) : l.isPrefixOf (l ++ x) = true := by
  induction l with
  | nil => simp [List.isPrefixOf]
  | cons a as ih => simp [List.isPrefixOf, ih]

theorem normSlashes_eq_self (l : List Char) (h : ∀ c ∈ l, (c == '\\') = false) :
    normSlashes l = l := by
  induction l with
  | nil => rfl
  | cons a as ih =>
    rw [normSlashes, List.map_cons, if_neg (by rw [h a (List.mem_cons_self a as)]; simp)]
    rw [show List.map (fun c => if c == '\\' then '/' else c) as = normSlashes as from rfl]
    rw [ih (fun c hc => h c (List.mem_cons_of_mem _ hc))]

theorem validKey_chars (key : List Char) (h : isValidKey key = true) :
    ∀ c ∈ key, (c == '/') = false ∧ (c == '\\') = false := by
  intro c hc
  have hall : key.all (fun c => c.isUpper || c.isLower || c.isDigit) = true := by
    unfold isValidKey at h
    exact (Bool.and_eq_true .. |>.mp h).2
  have hcp : (c.isUpper || c.isLower || c.isDigit) = true :=
    List.all_eq_true.mp hall c hc
  constructor <;> (rw [beq_eq_false_iff_ne]; intro he; subst he; exact absurd hcp (by decide))

theorem extractKey_root_case (root seg rest : List Char)
    (hroot : ∀ c ∈ root, (c == '\\') = false)
    (hlast : ¬ root.getLast? = some '/')
    (hseg : ∀ c ∈ seg, (c == '/') = false ∧ (c == '\\') = false) :
    extractKeyFromPath (root ++ '/' :: (seg ++ '/' :: rest)) root =
      if isValidKey seg then some (seg.map Char.toUpper) else none := by
  have hnr : normSlashes root = root := normSlashes_eq_self root hroot
  have hns : normSlashes seg = seg :=
    normSlashes_eq_self seg (fun c hc => (hseg c hc).2)
  have hst : stripTrailingSlash root = root := by
    unfold stripTrailingSlash
    rw [if_neg (by simp [hlast])]
  have hnorm : normSlashes (root ++ '/' :: (seg ++ '/' :: rest)) =
      root ++ '/' :: (seg ++ '/' :: normSlashes rest) := by
    unfold normSlashes at hnr hns ⊢
    simp only [List.map_append, List.map_cons, hnr, hns]
    simp
  have hsl : stripLeadingSlash ('/' :: (seg ++ '/' :: normSlashes rest)) =
      seg ++ '/' :: normSlashes rest := by
    have hc : (('/' :: (seg ++ '/' :: normSlashes rest)).head? == some '/') = true := by
      simp
    rw [stripLeadingSlash, if_pos hc]
    rfl
  have htw : List.takeWhile (fun c => !(c == '/')) (seg ++ '/' :: normSlashes rest)
      = seg :=
    takeWhile_all_append (fun c => !(c == '/')) seg '/' (normSlashes rest)
      (fun c hc => by show (!(c == '/')) = true; rw [(hseg c hc).1]; rfl) (by decide)
  simp only [extractKeyFromPath, hnorm, hnr, hst]
  rw [if_pos (isPrefixOf_append_self root ('/' :: (seg ++ '/' :: normSlashes rest)))]
  rw [List.drop_left, hsl, headD_splitOnPred, htw]

theorem extractKey_fallback_case (d seg f root : List Char)
    (hpre : (stripTrailingSlash (normSlashes root)).isPrefixOf
      (normSlashes (d ++ '/' :: (seg ++ '/' :: f))) = false)
    (hseg : ∀ c ∈ seg, (c == '/') = false)
    (hf : ∀ c ∈ f, (c == '/') = false) (_hfne : f ≠ []) :
    extractKeyFromPath (d ++ '/' :: (seg ++ '/' :: f)) root =
      if isValidKey seg then some (seg.map Char.toUpper) else none := by
  have hpd : parentDirName (d ++ '/' :: (seg ++ '/' :: f)) = seg := by
    unfold parentDirName
    simp only [List.reverse_append, List.reverse_cons, List.append_assoc,
      List.nil_append, List.singleton_append, List.cons_append]
    rw [dropWhile_all_append (fun c => !(c == '/')) f.reverse '/'
      (seg.reverse ++ '/' :: d.reverse)
      (fun c hc => by show (!(c == '/')) = true; rw [hf c (List.mem_reverse.mp hc)]; rfl) (by decide)]
    rw [List.drop_one, List.tail_cons]
    rw [takeWhile_all_append (fun c => !(c == '/')) seg.reverse '/' d.reverse
      (fun c hc => by show (!(c == '/')) = true; rw [hseg c (List.mem_reverse.mp hc)]; rfl) (by decide)]
    exact List.reverse_reverse seg
  have hn : ¬ ((stripTrailingSlash (normSlashes root)).isPrefixOf
      (normSlashes (d ++ '/' :: (seg ++ '/' :: f))) = true) := by
    rw [hpre]
    exact Bool.false_ne_true
  have htw : List.takeWhile (fun c => !(c == '/')) seg = seg :=
    takeWhile_all (fun c => !(c == '/')) seg
      (fun c hc => by show (!(c == '/')) = true; rw [hseg c hc]; rfl)
  simp only [extractKeyFromPath]
  rw [if_neg hn, hpd, headD_splitOnPred, htw]

/-- C9: for a path whose segment immediately under the storage root is a
well-formed 8-character alphanumeric token, `extractKeyFromPath` returns
that token uppercased; when the storage root is not a prefix of the
(normalized) path it validates the immediate parent directory name
instead; and when the examined segment is not a well-formed token it
returns none.  The function is a pure computation of its two string
inputs. -/
theorem c9_extractKey :
    (∀ root seg rest : List Char,
      (∀ c ∈ root, (c == '\\') = false) → ¬ root.getLast? = some '/' →
      isValidKey seg = true →
      extractKeyFromPath (root ++ '/' :: (seg ++ '/' :: rest)) root
        = some (seg.map Char.toUpper)) ∧
    (∀ d seg f root : List Char,
      (stripTrailingSlash (normSlashes root)).isPrefixOf
        (normSlashes (d ++ '/' :: (seg ++ '/' :: f))) = false →
      isValidKey seg = true →
      (∀ c ∈ f, (c == '/') = false) → f ≠ [] →
      extractKeyFromPath (d ++ '/' :: (seg ++ '/' :: f)) root
        = some (seg.map Char.toUpper)) ∧
    (∀ root seg rest : List Char,
      (∀ c ∈ root, (c == '\\') = false) → ¬ root.getLast? = some '/' →
      (∀ c ∈ seg, (c == '/') = false ∧ (c == '\\') = false) →
      isValidKey seg = false →
      extractKeyFromPath (root ++ '/' :: (seg ++ '/' :: rest)) root = none) := by
  refine ⟨?_, ?_, ?_⟩
  · intro root seg rest hroot hlast hkey
    rw [extractKey_root_case root seg rest hroot hlast (validKey_chars seg hkey)]
    rw [if_pos hkey]
  · intro d seg f root hpre hkey hf hfne
    rw [extractKey_fallback_case d seg f root hpre
      (fun c hc => (validKey_chars seg hkey c hc).1) hf hfne]
    rw [if_pos hkey]
  · intro root seg rest hroot hlast hseg hinv
    rw [extractKey_root_case root seg rest hroot hlast hseg]
    rw [if_neg (by rw [hinv]; exact Bool.false_ne_true)]

theorem c9_witness :
    extractKeyFromPath
        ("/home/u/Zotero/storage".toList ++
          '/' :: ("abcd1234".toList ++ '/' :: "paper.pdf".toList))
        "/home/u/Zotero/storage".toList
      = some ("abcd1234".toList.map Char.toUpper) :=
  c9_extractKey.1 "/home/u/Zotero/storage".toList "abcd1234".toList
    "paper.pdf".toList (by decide) (by decide) (by decide)

theorem c10_witness :
    analyzePaper "ABCD1234" false [] "claude-sonnet-4.6"
        ⟨some "[OK] extracted 0 chars".toList, [mClaudeSonnet], false,
          some "x".toList, true⟩ =
      ⟨Outcome.extractionEmpty, [Collab.extractText], ["ABCD1234"],
        [("ABCD1234", 120000)], none⟩ :=
  c10_statusLine.2.2 "ABCD1234" false [] "claude-sonnet-4.6"
    ⟨some "[OK] extracted 0 chars".toList, [mClaudeSonnet], false,
      some "x".toList, true⟩
    "[OK] extracted 0 chars".toList (by decide) (by decide) (by decide) (by decide)

/-! ## Debouncer — `handleNewFile` (lines 650–662)
`pendingFiles` maps each watched path to its pending debounce timer; paths
never interact, so the state is modelled per path: the pending timer's fire
time and the (chronological) list of times at which this path's debounce
callback has fired.  Times are in milliseconds. -/

/-- JavaScript `String.prototype.endsWith`. -/
def endsWithStr (s pat : String) : Bool :=
  pat.toList.isSuffixOf s.toList

/-- The fixed debounce quiet duration: `3000` ms (`// 3 秒去抖动`). -/
def quietMs : Nat := 3000

/-- Debounce state of one watched path. -/
structure DebounceState where
  pending : Option Nat
  fired : List Nat
deriving DecidableEq, Repr

/-- Advance the single-threaded event loop to time `t`: a pending timer
whose fire time has been reached has run by then — its callback executed
and its registry entry was deleted. -/
def advanceTo (s : DebounceState) (t : Nat) : DebounceState :=
  match s.pending with
  | some f => if f ≤ t then ⟨none, s.fired ++ [f]⟩ else s
  | none => s

/-- `handleNewFile(fullPath)` observed for one path at arrival time `t`:
paths without the `.pdf` extension are ignored; otherwise any pending timer
for this path is cancelled (`clearTimeout`) and a fresh timer of the fixed
3-second quiet duration is registered. -/
def handleNewFile (path : String) (s : DebounceState) (t : Nat) : DebounceState :=
  if endsWithStr path ".pdf" then
    let s1 := advanceTo s t
    ⟨some (t + quietMs), s1.fired⟩
  else s

/-- Replay a chronological burst of notifications for `path`. -/
def notifySeq (path : String) (s : DebounceState) (ts : List Nat) : DebounceState :=
  ts.foldl (handleNewFile path) s

/-- All fires once the loop runs to quiescence: the already-fired events
plus the still-pending timer, which eventually fires uncancelled. -/
def finalFires (s : DebounceState) : List Nat :=
  s.fired ++ (match s.pending with | some f => [f] | none => [])

theorem notifySeq_within (path : String) (hp : endsWithStr path ".pdf" = true) :
    ∀ (ts : List Nat) (prev : Nat) (fired : List Nat),
      List.Chain (fun a b => a ≤ b ∧ b < a + quietMs) prev ts →
      notifySeq path ⟨some (prev + quietMs), fired⟩ ts =
        ⟨some (ts.getLastD prev + quietMs), fired⟩ := by
  intro ts
  induction ts with
  | nil =>
    intro prev fired _
    rfl
  | cons t ts ih =>
    intro prev fired hch
    rcases List.chain_cons.mp hch with ⟨⟨hle, hlt⟩, hch2⟩
    rw [notifySeq, List.foldl_cons]
    have hstep : handleNewFile path ⟨some (prev + quietMs), fired⟩ t =
        ⟨some (t + quietMs), fired⟩ := by
      rw [handleNewFile, if_pos hp]
      simp only [advanceTo]
      rw [if_neg (by omega)]
    rw [hstep]
    rw [show List.foldl (handleNewFile path) ⟨some (t + quietMs), fired⟩ ts =
      notifySeq path ⟨some (t + quietMs), fired⟩ ts from rfl]
    rw [ih t fired hch2, List.getLastD_cons]

/-- C7: notifications for paths without the relevant `.pdf` extension are
ignored; and a chronological burst of N ≥ 1 notifications for one `.pdf`
path, each arriving strictly within the 3-second quiet window of its
predecessor, produces exactly one fired debounce event, scheduled at the
fixed quiet duration measured from the LAST notification — each new
notification cancels the pending timer and schedules a fresh one. -/
theorem c7_debounce :
    (∀ (path : String) (s : DebounceState) (t : Nat),
      endsWithStr path ".pdf" = false → handleNewFile path s t = s) ∧
    (∀ (path : String) (t : Nat) (ts : List Nat),
      endsWithStr path ".pdf" = true →
      List.Chain (fun a b => a ≤ b ∧ b < a + quietMs) t ts →
      finalFires (notifySeq path ⟨none, []⟩ (t :: ts)) = [ts.getLastD t + quietMs]) := by
  constructor
  · intro path s t h
    rw [handleNewFile, if_neg (by rw [h]; exact Bool.false_ne_true)]
  · intro path t ts hp hch
    rw [notifySeq, List.foldl_cons]
    have hstep : handleNewFile path ⟨none, []⟩ t = ⟨some (t + quietMs), []⟩ := by
      rw [handleNewFile, if_pos hp]
      rfl
    rw [hstep]
    rw [show List.foldl (handleNewFile path) ⟨some (t + quietMs), []⟩ ts =
      notifySeq path ⟨some (t + quietMs), []⟩ ts from rfl]
    rw [notifySeq_within path hp ts t [] hch]
    rfl

theorem c7_witness :
    finalFires (notifySeq "storage/ABCD1234/paper.pdf" ⟨none, []⟩ [0, 1000, 2500])
      = [5500] := by
  rw [c7_debounce.2 "storage/ABCD1234/paper.pdf" 0 [1000, 2500] (by decide)
    (by norm_num [List.chain_cons, quietMs])]
  decide

/-! ## Debounce-timer callback (lines 653–661)
When the 3-second timer fires, the callback deletes its registry entry,
checks `fs.existsSync(fullPath)`, extracts the item key, waits a fixed
5-second grace period (`// 等 Zotero 完成写入`), and invokes
`analyzePaper(key, true)`. -/

/-- The fixed grace period before the pipeline starts: `5000` ms. -/
def graceMs : Nat := 5000

/-- What the filesystem reports at the two instants of interest during the
callback: when the timer fires, and after the 5-second grace wait. -/
structure FireEnv where
  existsAtFire : Bool
  existsAfterGrace : Bool
deriving DecidableEq, Repr

/-- Result of the debounce callback. -/
inductive FireOutcome where
  | abandonedMissing
  | droppedNoKey
  | pipelineStarted (key : List Char)
deriving DecidableEq, Repr

/-- Body of the debounce `setTimeout` callback; returns the outcome and the
milliseconds deliberately waited inside the callback before `analyzePaper`
is invoked.  The source consults `fs.existsSync` once, when the timer
fires — before key extraction and before the 5-second wait; the
`existsAfterGrace` observation is never read. -/
def firedCallback (fullPath storageDir : List Char) (env : FireEnv) :
    FireOutcome × Nat :=
  if env.existsAtFire = false then (FireOutcome.abandonedMissing, 0)
  else
    match extractKeyFromPath fullPath storageDir with
    | none => (FireOutcome.droppedNoKey, 0)
    | some key => (FireOutcome.pipelineStarted key, graceMs)

/-- C8: the claim that after the 5-second grace wait the debouncer
re-checks the document's existence and abandons the run if it is gone is
false: here the document exists when the timer fires but is gone after the
grace wait, yet the pipeline run is started — the code performs no
existence check after the wait. -/
theorem c8_counterexample :
    firedCallback "/root/storage/ABCD1234/paper.pdf".toList "/root/storage".toList
        ⟨true, false⟩
      = (FireOutcome.pipelineStarted "ABCD1234".toList, graceMs) := by
  decide

/-- C8 (amended): the existence check happens once, when the debounce timer
fires — before identifier extraction and before the 5-second grace wait —
and is never repeated: if the document is missing at fire time the run is
abandoned silently with no wait, whatever happens later; if a key is
extracted, the callback waits the fixed 5-second grace period and then
starts the pipeline regardless of whether the document still exists after
the wait; if no key can be extracted, the event is dropped with a
diagnostic and no wait. -/
theorem c8_amended (fullPath storageDir : List Char) (g₁ g₂ : Bool) :
    (firedCallback fullPath storageDir ⟨false, g₁⟩
      = (FireOutcome.abandonedMissing, 0)) ∧
    (∀ key, extractKeyFromPath fullPath storageDir = some key →
      firedCallback fullPath storageDir ⟨true, g₂⟩
        = (FireOutcome.pipelineStarted key, graceMs)) ∧
    (extractKeyFromPath fullPath storageDir = none →
      firedCallback fullPath storageDir ⟨true, g₂⟩
        = (FireOutcome.droppedNoKey, 0)) := by
  refine ⟨rfl, ?_, ?_⟩
  · intro key hk
    rw [firedCallback, if_neg (by simp), hk]
  · intro hk
    rw [firedCallback, if_neg (by simp), hk]

theorem c8_witness :
    firedCallback "/root/storage/ABCD1234/paper.pdf".toList "/root/storage".toList
        ⟨true, true⟩
      = (FireOutcome.pipelineStarted "ABCD1234".toList, graceMs) :=
  (c8_amended "/root/storage/ABCD1234/paper.pdf".toList "/root/storage".toList
    true true).2.1 "ABCD1234".toList (by decide)

end PaperManager
